import Mathlib

/-!
Shallow embedding of the Kin-Portfolio-Rebalancer engine
(`backend/portfolio_manager.py`, `backend/services/rebalancer.py`,
`backend/api/gate_client.py`, `backend/config/settings.py`).

Money amounts, prices and sizes are modelled as rationals; fields of the
exchange responses that may fail to parse as numbers are `Option`s
(`none` = unparsable), matching the `float(...)`/`try` handling in the
Python source. The exchange gateway is a record of response functions,
and the execution engine additionally returns the list of orders it
actually handed to the gateway, so that submission behaviour is
observable.
-/

namespace PortfolioRebalancer

/-- The four keys of every portfolio dict in the source:
`supported_assets = ["BTC_USDT", "ETH_USDT", "LTC_USDT", "USDT"]`.
A Python dict over exactly these keys is modelled as a structure with
one rational field per key, in insertion order. -/
structure AssetMap where
  btc : ℚ
  eth : ℚ
  ltc : ℚ
  usdt : ℚ
deriving DecidableEq, Repr

def supported_assets : List String := ["BTC_USDT", "ETH_USDT", "LTC_USDT", "USDT"]

/-- Dict read `m.get(contract, 0)` on a portfolio-shaped dict. -/
def assetGet (m : AssetMap) (c : String) : ℚ :=
  if c = "BTC_USDT" then m.btc
  else if c = "ETH_USDT" then m.eth
  else if c = "LTC_USDT" then m.ltc
  else if c = "USDT" then m.usdt
  else 0

/-- Dict write `m[contract] = v` on a portfolio-shaped dict. -/
def assetSet (m : AssetMap) (c : String) (v : ℚ) : AssetMap :=
  if c = "BTC_USDT" then { m with btc := v }
  else if c = "ETH_USDT" then { m with eth := v }
  else if c = "LTC_USDT" then { m with ltc := v }
  else if c = "USDT" then { m with usdt := v }
  else m

/-- `sum(m.values())`. -/
def assetSum (m : AssetMap) : ℚ := m.btc + m.eth + m.ltc + m.usdt

/-- Sum of the non-cash values of the dict. -/
def noncashSum (m : AssetMap) : ℚ := m.btc + m.eth + m.ltc

/-- One entry of the position list returned by the gateway; `none` in a
numeric field models a value that `float(...)` cannot parse. -/
structure Position where
  contract : String
  size : Option ℚ
  mark_price : Option ℚ
deriving DecidableEq, Repr

/-- One iteration of the position loop in
`PortfolioManager.get_current_portfolio` (lines 48-71): positions with an
unsupported contract, an unparsable numeric field, or a non-positive mark
price are skipped; otherwise `margin = |size| * mark_price / 3` is added
to the used margin and written into the portfolio dict. -/
def marginStep (acc : AssetMap × ℚ) (p : Position) : AssetMap × ℚ :=
  if p.contract ∈ supported_assets then
    match p.size, p.mark_price with
    | some sz, some mp =>
      if mp ≤ 0 then acc
      else
        let margin := |sz| * mp / 3
        (assetSet acc.1 p.contract margin, acc.2 + margin)
    | _, _ => acc
  else acc

/-- The whole position loop, started from the all-zero portfolio. -/
def portfolio_fold (positions : List Position) : AssetMap × ℚ :=
  positions.foldl marginStep (⟨0, 0, 0, 0⟩, 0)

/-- The accumulated used margin of the position loop. -/
def used_margin (positions : List Position) : ℚ := (portfolio_fold positions).2

/-- `PortfolioManager.get_current_portfolio`: `account_total = none` models
an account `total` field that could not be parsed (treated as `0.0` after
a warning); the cash entry is `max(0, total_assets - used_margin)`. -/
def get_current_portfolio (account_total : Option ℚ) (positions : List Position) : AssetMap :=
  let total_assets := account_total.getD 0
  assetSet (portfolio_fold positions).1 "USDT" (max 0 (total_assets - used_margin positions))

/-- The configured non-cash percentage allocation (`settings.py`). -/
structure PortfolioAllocation where
  BTC_USDT : ℚ
  ETH_USDT : ℚ
  LTC_USDT : ℚ
deriving DecidableEq, Repr

/-- `PortfolioAllocation.__init__` together with `_validate`: construction
raises `ValueError` when the percentages sum to more than 100, modelled as
`Except.error`. -/
def PortfolioAllocation.init (b e l : ℚ) : Except Unit PortfolioAllocation :=
  if b + e + l > 100 then Except.error () else Except.ok ⟨b, e, l⟩

/-- `Config.load_config`: the allocation is built from the file values
inside a `try`; any exception is logged and the default allocation
`PortfolioAllocation()` (20 / 15 / 5) assigned in `Config.__init__` stays. -/
def load_allocation (b e l : ℚ) : PortfolioAllocation :=
  match PortfolioAllocation.init b e l with
  | Except.ok a => a
  | Except.error _ => ⟨20, 15, 5⟩

/-- `PortfolioManager.get_target_portfolio`: percentages become fractions
and the cash weight is the clamped remainder `max(0, 1 - crypto_total)`. -/
def get_target_portfolio (a : PortfolioAllocation) : AssetMap :=
  let b := a.BTC_USDT / 100
  let e := a.ETH_USDT / 100
  let l := a.LTC_USDT / 100
  { btc := b, eth := e, ltc := l, usdt := max 0 (1 - (b + e + l)) }

/-- `PortfolioManager.get_market_prices`: USDT is pinned to 1, non-positive
prices from the gateway are replaced by 0 with a warning. -/
def get_market_prices (priceOf : String → ℚ) : AssetMap :=
  { btc := if priceOf "BTC_USDT" ≤ 0 then 0 else priceOf "BTC_USDT"
    eth := if priceOf "ETH_USDT" ≤ 0 then 0 else priceOf "ETH_USDT"
    ltc := if priceOf "LTC_USDT" ≤ 0 then 0 else priceOf "LTC_USDT"
    usdt := 1 }

/-- The per-asset weight loop of `get_portfolio_summary` (line 140):
`value / total` when the total is positive, else `0.0`. -/
def percentages_of (pf : AssetMap) : AssetMap :=
  let s := assetSum pf
  { btc := if s > 0 then pf.btc / s else 0
    eth := if s > 0 then pf.eth / s else 0
    ltc := if s > 0 then pf.ltc / s else 0
    usdt := if s > 0 then pf.usdt / s else 0 }

/-- The deviation loop of `get_portfolio_summary` (lines 143-147). -/
def deviations_of (pct targets : AssetMap) : AssetMap :=
  { btc := pct.btc - targets.btc
    eth := pct.eth - targets.eth
    ltc := pct.ltc - targets.ltc
    usdt := pct.usdt - targets.usdt }

/-- The dict returned by `PortfolioManager.get_portfolio_summary`. -/
structure PortfolioSummary where
  current_portfolio : AssetMap
  target_allocations : AssetMap
  current_percentages : AssetMap
  deviations : AssetMap
  total_assets : ℚ
  used_margin : ℚ
deriving DecidableEq, Repr

/-- `PortfolioManager.get_portfolio_summary`. -/
def get_portfolio_summary (account_total : Option ℚ) (positions : List Position)
    (alloc : PortfolioAllocation) : PortfolioSummary :=
  let current_portfolio := get_current_portfolio account_total positions
  let target_allocations := get_target_portfolio alloc
  let pcts := percentages_of current_portfolio
  { current_portfolio := current_portfolio
    target_allocations := target_allocations
    current_percentages := pcts
    deviations := deviations_of pcts target_allocations
    total_assets := assetSum current_portfolio
    used_margin := assetSum current_portfolio - current_portfolio.usdt }

/-- The minimum-adjustment filter of `Rebalancer._calculate_rebalance_amounts`
(lines 58-61): a difference below 10 USDT in absolute value is reset to 0. -/
def adjust (diff : ℚ) : ℚ := if |diff| < 10 then 0 else diff

/-- `Rebalancer._calculate_rebalance_amounts`: per non-cash asset the
filtered difference between target margin (`total_assets * weight`) and
current margin; the USDT entry is minus the sum of the others. -/
def calculate_rebalance_amounts (pd : PortfolioSummary) : AssetMap :=
  let b := adjust (pd.total_assets * pd.target_allocations.btc - pd.current_portfolio.btc)
  let e := adjust (pd.total_assets * pd.target_allocations.eth - pd.current_portfolio.eth)
  let l := adjust (pd.total_assets * pd.target_allocations.ltc - pd.current_portfolio.ltc)
  { btc := b, eth := e, ltc := l, usdt := -(b + e + l) }

/-- One entry of the trade list built by `Rebalancer._calculate_trades`. -/
structure Trade where
  contract : String
  size : ℚ
  market_price : ℚ
deriving DecidableEq, Repr

/-- One iteration of the loop in `Rebalancer._calculate_trades`
(lines 84-102): skip amounts below 1 USDT, the USDT entry, and assets with
a non-positive market price; otherwise emit a trade sized
`amount_diff * 3 / market_price` (fixed leverage 3). -/
def trade_for (contract : String) (amount_diff : ℚ) (market_price : ℚ) : Option Trade :=
  if |amount_diff| < 1 ∨ contract = "USDT" then none
  else if market_price ≤ 0 then none
  else some ⟨contract, amount_diff * 3 / market_price, market_price⟩

/-- `Rebalancer._calculate_trades`, iterating the rebalance-amount dict in
its insertion order BTC, ETH, LTC, USDT. -/
def calculate_trades (amounts : AssetMap) (market_prices : AssetMap) : List Trade :=
  (trade_for "BTC_USDT" amounts.btc market_prices.btc).toList ++
    (trade_for "ETH_USDT" amounts.eth market_prices.eth).toList ++
    (trade_for "LTC_USDT" amounts.ltc market_prices.ltc).toList ++
    (trade_for "USDT" amounts.usdt market_prices.usdt).toList

/-- The dict form of a gateway order-creation response; `none` for the raw
call models an `ApiException` (the client returns `None`). -/
structure OrderResult where
  status : String
  size : Option ℚ
  fill_price : Option ℚ
  id : Option Nat
deriving DecidableEq, Repr

/-- The `min_sizes` dict of `GateFuturesClient.create_futures_order`
(lines 220-227), read with default 1. -/
def min_sizes (contract : String) : Int :=
  if contract = "BTC_USDT" then 1
  else if contract = "ETH_USDT" then 1
  else if contract = "LTC_USDT" then 1
  else 1

/-- Python `int(...)` on a rational: truncation toward zero. -/
def pytrunc (q : ℚ) : Int := if 0 ≤ q then ⌊q⌋ else ⌈q⌉

/-- The size normalisation of `GateFuturesClient.create_futures_order`
(lines 226-241): bump a size below the minimum to the signed minimum,
truncate to an integer contract count, and force a zero truncation back to
a signed single contract. -/
def order_size_int (contract : String) (size0 : ℚ) : Int :=
  let min_size := min_sizes contract
  let size := if |size0| < (min_size : ℚ) then
      (if size0 > 0 then (min_size : ℚ) else -(min_size : ℚ))
    else size0
  let i := pytrunc size
  if i = 0 then (if size > 0 then 1 else -1) else i

/-- `GateFuturesClient.create_futures_order` against an abstract exchange
response function `api`: size 0 is rejected up front, otherwise the
normalised integer size is submitted. -/
def create_futures_order (api : String → Int → Option OrderResult) (contract : String)
    (size : ℚ) : Option OrderResult :=
  if size = 0 then none
  else api contract (order_size_int contract size)

/-- The gateway capabilities consumed by the execution engine. -/
structure Gateway where
  set_leverage : String → Int → Bool
  raw_create_order : String → Int → Option OrderResult

/-- One entry of the `executed_trades` list built by
`Rebalancer._execute_trades`. -/
structure ExecutedTrade where
  contract : String
  side : String
  amount : ℚ
  price : ℚ
  status : String
  order_id : Option Nat
deriving DecidableEq, Repr

/-- `Rebalancer._execute_trades` (lines 132-177). The first component is
the `executed_trades` list of the source; the second records every order
the engine handed to `api_client.create_futures_order`, so that order
submission is observable. A result whose status is `open` counts as a
failure, exactly as in line 162 of the source. -/
def execute_trades (gw : Gateway) : List Trade → List ExecutedTrade × List (String × ℚ)
  | [] => ([], [])
  | t :: rest =>
    if |t.size| < 1 / 100000 then execute_trades gw rest
    else if t.contract = "USDT" then execute_trades gw rest
    else
      let side := if t.size > 0 then "buy" else "sell"
      if gw.set_leverage t.contract 3 = false then execute_trades gw rest
      else
        let tail := execute_trades gw rest
        match create_futures_order gw.raw_create_order t.contract t.size with
        | some r =>
          if r.status ≠ "open" then
            let executed_size := r.size.getD t.size
            ({ contract := t.contract, side := side, amount := |executed_size|,
               price := r.fill_price.getD t.market_price, status := "executed",
               order_id := r.id } :: tail.1,
             (t.contract, t.size) :: tail.2)
          else (tail.1, (t.contract, t.size) :: tail.2)
        | none => (tail.1, (t.contract, t.size) :: tail.2)

/-- The deviation loop of `Rebalancer.threshold_rebalance` (lines 199-206):
true iff some deviation exceeds the threshold in absolute value. -/
def needs_rebalance_check (devs : AssetMap) (threshold : ℚ) : Bool :=
  decide (|devs.btc| > threshold) || decide (|devs.eth| > threshold) ||
    decide (|devs.ltc| > threshold) || decide (|devs.usdt| > threshold)

/-- `Rebalancer.threshold_rebalance`, with the gateway data (account total,
positions, per-contract prices) and configuration passed explicitly. -/
def threshold_rebalance (gw : Gateway) (account_total : Option ℚ)
    (positions : List Position) (alloc : PortfolioAllocation)
    (rebalance_threshold : ℚ) (priceOf : String → ℚ) : Bool :=
  let pd := get_portfolio_summary account_total positions alloc
  let threshold := rebalance_threshold / 100
  let needs_rebalance := needs_rebalance_check pd.deviations threshold
  if needs_rebalance = false then false
  else
    let amounts := calculate_rebalance_amounts pd
    let trades := calculate_trades amounts (get_market_prices priceOf)
    if trades = [] then false
    else decide ((execute_trades gw trades).1.length > 0)

/-! ### Helper lemmas -/

lemma min_sizes_eq_one (contract : String) : min_sizes contract = 1 := by
  unfold min_sizes
  split_ifs <;> rfl

lemma assetSet_usdt (m : AssetMap) (v : ℚ) : assetSet m "USDT" v = { m with usdt := v } := rfl

lemma assetGet_btc (m : AssetMap) : assetGet m "BTC_USDT" = m.btc := rfl

lemma assetGet_eth (m : AssetMap) : assetGet m "ETH_USDT" = m.eth := rfl

lemma assetGet_ltc (m : AssetMap) : assetGet m "LTC_USDT" = m.ltc := rfl

lemma assetGet_update_btc (m : AssetMap) (v : ℚ) (c : String) (h : c ≠ "BTC_USDT") :
    assetGet { m with btc := v } c = assetGet m c := by
  unfold assetGet
  split_ifs <;> simp_all

lemma assetGet_update_eth (m : AssetMap) (v : ℚ) (c : String) (h : c ≠ "ETH_USDT") :
    assetGet { m with eth := v } c = assetGet m c := by
  unfold assetGet
  split_ifs <;> simp_all

lemma assetGet_update_ltc (m : AssetMap) (v : ℚ) (c : String) (h : c ≠ "LTC_USDT") :
    assetGet { m with ltc := v } c = assetGet m c := by
  unfold assetGet
  split_ifs <;> simp_all

lemma pytrunc_ne_zero_of_one_le_abs {s : ℚ} (h : 1 ≤ |s|) : pytrunc s ≠ 0 := by
  unfold pytrunc
  rcases abs_cases s with ⟨habs, hsgn⟩ | ⟨habs, hsgn⟩
  · rw [if_pos hsgn]
    have h1 : (1 : ℤ) ≤ ⌊s⌋ := by
      rw [Int.le_floor]
      push_cast
      linarith
    omega
  · rw [if_neg (by linarith)]
    have h1 : ⌈s⌉ ≤ -1 := by
      rw [Int.ceil_le]
      push_cast
      linarith
    omega

lemma mem_trade_for {c : String} {a p : ℚ} {t : Trade} (h : t ∈ (trade_for c a p).toList) :
    t = ⟨c, a * 3 / p, p⟩ := by
  unfold trade_for at h
  split_ifs at h <;> simp_all

lemma trade_for_usdt (a p : ℚ) : trade_for "USDT" a p = none := by
  unfold trade_for
  rw [if_pos (Or.inr rfl)]

/-! ### C5 -/

/-- C5: for every order request with nonzero size, a size below the
configured minimum is submitted as the signed minimum, a size whose
integer truncation is 0 is submitted as a signed single contract, and the
submitted integer size is never 0. -/
theorem order_size_min_policy (contract : String) (s : ℚ) (hs : s ≠ 0) :
    (|s| < (min_sizes contract : ℚ) →
      order_size_int contract s =
        if s > 0 then min_sizes contract else -min_sizes contract) ∧
    (pytrunc s = 0 → order_size_int contract s = if s > 0 then 1 else -1) ∧
    order_size_int contract s ≠ 0 := by
  have hm : min_sizes contract = 1 := min_sizes_eq_one contract
  have hp1 : pytrunc (1 : ℚ) = 1 := by
    unfold pytrunc
    rw [if_pos (by norm_num)]
    norm_num
  have hpn1 : pytrunc (-1 : ℚ) = -1 := by
    unfold pytrunc
    rw [if_neg (by norm_num), show (-1 : ℚ) = ((-1 : ℤ) : ℚ) by norm_num, Int.ceil_intCast]
  simp only [order_size_int, hm]
  push_cast
  by_cases h1 : |s| < 1
  · rw [if_pos h1]
    by_cases hpos : s > 0
    · refine ⟨fun _ => ?_, fun _ => ?_, ?_⟩ <;> simp [hp1, hpos]
    · refine ⟨fun _ => ?_, fun _ => ?_, ?_⟩ <;> simp [hpn1, hpos]
  · have h2 : pytrunc s ≠ 0 := pytrunc_ne_zero_of_one_le_abs (le_of_not_lt h1)
    rw [if_neg h1, if_neg h2]
    exact ⟨fun h => absurd h h1, fun h => absurd h h2, h2⟩

/-- Witness for C5 at contract BTC_USDT and size 1/2: the minimum-size bump
applies and the submitted size is 1. -/
theorem order_size_min_policy_witness :
    order_size_int "BTC_USDT" (1 / 2) = min_sizes "BTC_USDT" ∧
    order_size_int "BTC_USDT" (1 / 2) ≠ 0 := by
  have h := order_size_min_policy "BTC_USDT" (1 / 2) (by norm_num)
  have h1 := h.1 (by rw [min_sizes_eq_one, abs_of_pos] <;> norm_num)
  refine ⟨?_, h.2.2⟩
  simpa using h1

/-! ### C7 -/

/-- C7: every planned trade is sized exactly
amount_diff times leverage 3 divided by the market price of its contract. -/
theorem trade_size_identity (amounts prices : AssetMap) (t : Trade)
    (ht : t ∈ calculate_trades amounts prices) :
    t.size = assetGet amounts t.contract * 3 / t.market_price := by
  unfold calculate_trades at ht
  simp only [List.mem_append] at ht
  rcases ht with ((hb | he) | hl) | hu
  · rw [mem_trade_for hb]
    simp [assetGet]
  · rw [mem_trade_for he]
    simp [assetGet]
  · rw [mem_trade_for hl]
    simp [assetGet]
  · rw [trade_for_usdt] at hu
    simp at hu

/-- Witness for C7: amount 300 at price 30000 yields size 3/100 = 0.03. -/
theorem trade_size_identity_witness :
    (⟨"BTC_USDT", 3 / 100, 30000⟩ : Trade) ∈
      calculate_trades ⟨300, 0, 0, 0⟩ ⟨30000, 1, 1, 1⟩ ∧
    (3 / 100 : ℚ) = assetGet ⟨300, 0, 0, 0⟩ "BTC_USDT" * 3 / 30000 := by
  have hm : (⟨"BTC_USDT", 3 / 100, 30000⟩ : Trade) ∈
      calculate_trades ⟨300, 0, 0, 0⟩ ⟨30000, 1, 1, 1⟩ := by
    norm_num +decide [calculate_trades, trade_for]
  exact ⟨hm, trade_size_identity ⟨300, 0, 0, 0⟩ ⟨30000, 1, 1, 1⟩ _ hm⟩

/-! ### C8 -/

/-- C8: for a configuration with non-cash percentages in the range 0 to 100
summing to at most 100, the USDT weight is the clamped remainder and all
weights sum to 1 within tolerance one millionth. -/
theorem target_weights_sum (a : PortfolioAllocation)
    (hb : 0 ≤ a.BTC_USDT) (hb2 : a.BTC_USDT ≤ 100)
    (he : 0 ≤ a.ETH_USDT) (he2 : a.ETH_USDT ≤ 100)
    (hl : 0 ≤ a.LTC_USDT) (hl2 : a.LTC_USDT ≤ 100)
    (hsum : a.BTC_USDT + a.ETH_USDT + a.LTC_USDT ≤ 100) :
    (get_target_portfolio a).usdt =
      max 0 (1 - (a.BTC_USDT / 100 + a.ETH_USDT / 100 + a.LTC_USDT / 100)) ∧
    |assetSum (get_target_portfolio a) - 1| ≤ 1 / 1000000 := by
  constructor
  · rfl
  · simp only [assetSum, get_target_portfolio]
    rw [max_eq_right (by linarith)]
    have h0 : a.BTC_USDT / 100 + a.ETH_USDT / 100 + a.LTC_USDT / 100 +
        (1 - (a.BTC_USDT / 100 + a.ETH_USDT / 100 + a.LTC_USDT / 100)) - 1 = 0 := by
      ring
    rw [h0]
    norm_num

/-- Witness for C8 at the default allocation 20 / 15 / 5. -/
theorem target_weights_sum_witness :
    (get_target_portfolio ⟨20, 15, 5⟩).usdt =
      max 0 (1 - ((20 : ℚ) / 100 + 15 / 100 + 5 / 100)) ∧
    |assetSum (get_target_portfolio ⟨20, 15, 5⟩) - 1| ≤ 1 / 1000000 :=
  target_weights_sum ⟨20, 15, 5⟩ (by norm_num) (by norm_num) (by norm_num)
    (by norm_num) (by norm_num) (by norm_num) (by norm_num)

/-! ### Execution-engine structure lemmas -/

lemma execute_trades_submissions_not_usdt (gw : Gateway) :
    ∀ trades : List Trade, ∀ s ∈ (execute_trades gw trades).2, s.1 ≠ "USDT" := by
  intro trades
  induction trades with
  | nil =>
    intro s hs
    simp [execute_trades] at hs
  | cons t rest ih =>
    intro s hs
    rcases hc : create_futures_order gw.raw_create_order t.contract t.size with _ | r <;>
      simp only [execute_trades, hc] at hs <;>
      split_ifs at hs <;>
      first
        | exact ih s hs
        | exact (List.mem_cons.mp hs).elim
            (fun h => by rw [h]; exact ‹t.contract ≠ "USDT"›) (fun h => ih s h)

lemma execute_trades_records_executed (gw : Gateway) :
    ∀ trades : List Trade, ∀ r ∈ (execute_trades gw trades).1, r.status = "executed" := by
  intro trades
  induction trades with
  | nil =>
    intro r hr
    simp [execute_trades] at hr
  | cons t rest ih =>
    intro r hr
    rcases hc : create_futures_order gw.raw_create_order t.contract t.size with _ | res <;>
      simp only [execute_trades, hc] at hr <;>
      split_ifs at hr <;>
      first
        | exact ih r hr
        | exact (List.mem_cons.mp hr).elim (fun h => by rw [h]) (fun h => ih r h)

/-! ### C9 -/

/-- C9: the cash asset USDT is never traded: no planned trade and no
submitted order has contract USDT, and the rebalance amounts sum to 0
because the USDT amount is minus the sum of the non-cash amounts. -/
theorem usdt_never_traded (amounts prices : AssetMap) (gw : Gateway)
    (trades : List Trade) (pd : PortfolioSummary) :
    (∀ t ∈ calculate_trades amounts prices, t.contract ≠ "USDT") ∧
    (∀ s ∈ (execute_trades gw trades).2, s.1 ≠ "USDT") ∧
    (calculate_rebalance_amounts pd).usdt =
      -((calculate_rebalance_amounts pd).btc + (calculate_rebalance_amounts pd).eth +
        (calculate_rebalance_amounts pd).ltc) ∧
    assetSum (calculate_rebalance_amounts pd) = 0 := by
  refine ⟨?_, execute_trades_submissions_not_usdt gw trades, ?_, ?_⟩
  · intro t ht
    unfold calculate_trades at ht
    simp only [List.mem_append] at ht
    rcases ht with ((hb | he) | hl) | hu
    · rw [mem_trade_for hb]
      show ("BTC_USDT" : String) ≠ "USDT"
      decide
    · rw [mem_trade_for he]
      show ("ETH_USDT" : String) ≠ "USDT"
      decide
    · rw [mem_trade_for hl]
      show ("LTC_USDT" : String) ≠ "USDT"
      decide
    · rw [trade_for_usdt] at hu
      simp at hu
  · rfl
  · simp only [assetSum, calculate_rebalance_amounts]
    ring

/-- Witness for C9: a concrete planned trade and a concrete submitted order,
both with a non-USDT contract, and a concrete rebalance-amount dict summing
to 0. -/
theorem usdt_never_traded_witness :
    (⟨"BTC_USDT", 3 / 100, 30000⟩ : Trade).contract ≠ "USDT" ∧
    Prod.fst ("BTC_USDT", (3 : ℚ)) ≠ "USDT" ∧
    assetSum (calculate_rebalance_amounts
      ⟨⟨0, 0, 0, 100⟩, ⟨1 / 5, 3 / 20, 1 / 20, 3 / 5⟩, ⟨0, 0, 0, 1⟩,
        ⟨-(1 / 5), -(3 / 20), -(1 / 20), 2 / 5⟩, 100, 0⟩) = 0 := by
  have h := usdt_never_traded ⟨300, 0, 0, 0⟩ ⟨30000, 1, 1, 1⟩
    ⟨fun _ _ => true, fun _ _ => some ⟨"finished", some 5, some 50, some 7⟩⟩
    [⟨"BTC_USDT", 3, 100⟩]
    ⟨⟨0, 0, 0, 100⟩, ⟨1 / 5, 3 / 20, 1 / 20, 3 / 5⟩, ⟨0, 0, 0, 1⟩,
      ⟨-(1 / 5), -(3 / 20), -(1 / 20), 2 / 5⟩, 100, 0⟩
  refine ⟨h.1 _ ?_, h.2.1 ("BTC_USDT", (3 : ℚ)) ?_, h.2.2.2⟩
  · norm_num +decide [calculate_trades, trade_for]
  · norm_num +decide [execute_trades, create_futures_order, order_size_int, min_sizes, pytrunc]

/-! ### Non-negativity of the snapshot fold -/

lemma marginStep_nonneg (acc : AssetMap × ℚ) (p : Position)
    (h : (0 ≤ acc.1.btc ∧ 0 ≤ acc.1.eth ∧ 0 ≤ acc.1.ltc ∧ 0 ≤ acc.1.usdt) ∧ 0 ≤ acc.2) :
    (0 ≤ (marginStep acc p).1.btc ∧ 0 ≤ (marginStep acc p).1.eth ∧
      0 ≤ (marginStep acc p).1.ltc ∧ 0 ≤ (marginStep acc p).1.usdt) ∧
    0 ≤ (marginStep acc p).2 := by
  unfold marginStep
  by_cases hmem : p.contract ∈ supported_assets
  · rw [if_pos hmem]
    rcases p.size with _ | sz <;> rcases p.mark_price with _ | mp <;> dsimp only
    · exact h
    · exact h
    · exact h
    · split_ifs with hmp
      · exact h
      · have hm : 0 ≤ |sz| * mp / 3 := by
          have h1 : 0 ≤ |sz| := abs_nonneg sz
          have h2 : 0 ≤ mp := le_of_lt (lt_of_not_le hmp)
          positivity
        have hset : ∀ v : ℚ, 0 ≤ v →
            0 ≤ (assetSet acc.1 p.contract v).btc ∧ 0 ≤ (assetSet acc.1 p.contract v).eth ∧
              0 ≤ (assetSet acc.1 p.contract v).ltc ∧ 0 ≤ (assetSet acc.1 p.contract v).usdt := by
          intro v hv
          unfold assetSet
          split_ifs <;> exact ⟨by simp_all, by simp_all, by simp_all, by simp_all⟩
        refine ⟨hset _ hm, ?_⟩
        have h2 := h.2
        dsimp only
        linarith
  · rw [if_neg hmem]
    exact h

lemma portfolio_fold_nonneg (positions : List Position) :
    (0 ≤ (portfolio_fold positions).1.btc ∧ 0 ≤ (portfolio_fold positions).1.eth ∧
      0 ≤ (portfolio_fold positions).1.ltc ∧ 0 ≤ (portfolio_fold positions).1.usdt) ∧
    0 ≤ (portfolio_fold positions).2 := by
  unfold portfolio_fold
  have hgen : ∀ (ps : List Position) (acc : AssetMap × ℚ),
      ((0 ≤ acc.1.btc ∧ 0 ≤ acc.1.eth ∧ 0 ≤ acc.1.ltc ∧ 0 ≤ acc.1.usdt) ∧ 0 ≤ acc.2) →
      ((0 ≤ (ps.foldl marginStep acc).1.btc ∧ 0 ≤ (ps.foldl marginStep acc).1.eth ∧
        0 ≤ (ps.foldl marginStep acc).1.ltc ∧ 0 ≤ (ps.foldl marginStep acc).1.usdt) ∧
      0 ≤ (ps.foldl marginStep acc).2) := by
    intro ps
    induction ps with
    | nil => intro acc h; exact h
    | cons p rest ih =>
      intro acc h
      exact ih _ (marginStep_nonneg acc p h)
  exact hgen positions (⟨0, 0, 0, 0⟩, 0) (by norm_num)

/-! ### C10 -/

/-- C10: an unparsable account total is treated as 0: the snapshot is the
same one produced for a reported total of 0, it is still returned rather
than an error, and its cash value is floored at 0. -/
theorem unparsable_total_zero_snapshot (positions : List Position) :
    get_current_portfolio none positions = get_current_portfolio (some 0) positions ∧
    (get_current_portfolio none positions).usdt = 0 := by
  refine ⟨rfl, ?_⟩
  unfold get_current_portfolio
  rw [assetSet_usdt]
  simp only [Option.getD_none, zero_sub]
  rw [max_eq_left]
  have := (portfolio_fold_nonneg positions).2
  unfold used_margin
  linarith

/-! ### C2 -/

/-- A gateway whose leverage-set call always fails and whose raw order call
always succeeds. -/
def gwLevFail : Gateway :=
  ⟨fun _ _ => false, fun _ _ => some ⟨"finished", some 1, some 100, some 1⟩⟩

/-- Counterexample to C2: with a failing leverage-set call, the engine
submits no order at all for a nonzero trade (the submission log is empty),
instead of proceeding to order submission. -/
theorem leverage_failure_no_order_submitted :
    gwLevFail.set_leverage "BTC_USDT" 3 = false ∧
    execute_trades gwLevFail [⟨"BTC_USDT", 2, 100⟩] = ([], []) := by
  constructor
  · rfl
  · norm_num +decide [execute_trades]

/-- C2 amended: when the leverage-set gateway call fails for a trade, the
engine skips that trade entirely, submitting no order for it, and continues
with the remaining trades unchanged. -/
theorem leverage_failure_skips_trade (gw : Gateway) (t : Trade) (rest : List Trade)
    (hsz : ¬ |t.size| < 1 / 100000) (hc : t.contract ≠ "USDT")
    (hlev : gw.set_leverage t.contract 3 = false) :
    execute_trades gw (t :: rest) = execute_trades gw rest := by
  simp only [execute_trades]
  rw [if_neg hsz, if_neg hc, if_pos hlev]

/-- Witness for C2 amended at a concrete failing gateway and trade. -/
theorem leverage_failure_skips_trade_witness :
    execute_trades gwLevFail [⟨"BTC_USDT", 2, 100⟩] = execute_trades gwLevFail [] :=
  leverage_failure_skips_trade gwLevFail ⟨"BTC_USDT", 2, 100⟩ []
    (by norm_num [abs_of_pos]) (by decide) rfl

/-! ### C3 -/

/-- A gateway whose raw order call fails exactly for the ETH contract. -/
def gwEthFail : Gateway :=
  ⟨fun _ _ => true,
   fun c _ => if c = "ETH_USDT" then none else some ⟨"finished", some 5, some 50, some 7⟩⟩

/-- Counterexample to C3: a plan of three intents whose second order call
fails yields only the two records for intents 1 and 3, both with status
executed; no record with status failed is produced for intent 2. -/
theorem order_failure_leaves_no_failed_record :
    execute_trades gwEthFail
        [⟨"BTC_USDT", 2, 100⟩, ⟨"ETH_USDT", 3, 100⟩, ⟨"LTC_USDT", 4, 100⟩] =
      ([⟨"BTC_USDT", "buy", 5, 50, "executed", some 7⟩,
        ⟨"LTC_USDT", "buy", 5, 50, "executed", some 7⟩],
       [("BTC_USDT", 2), ("ETH_USDT", 3), ("LTC_USDT", 4)]) ∧
    (execute_trades gwEthFail
        [⟨"BTC_USDT", 2, 100⟩, ⟨"ETH_USDT", 3, 100⟩, ⟨"LTC_USDT", 4, 100⟩]).1.all
      (fun r => !(r.status == "failed")) = true := by
  constructor
  · norm_num +decide [execute_trades, create_futures_order, order_size_int, min_sizes, pytrunc]
  · norm_num +decide [execute_trades, create_futures_order, order_size_int, min_sizes, pytrunc,
      List.all]

/-- C3 amended: when the order-creation call for an intent fails (no result,
or a result left with status open), the engine appends no execution record
for that intent and continues with the remaining intents; every record it
does produce has status executed. -/
theorem order_failure_skips_record (gw : Gateway) (t : Trade) (rest : List Trade)
    (hsz : ¬ |t.size| < 1 / 100000) (hc : t.contract ≠ "USDT")
    (hlev : gw.set_leverage t.contract 3 = true)
    (hfail : ∀ r, create_futures_order gw.raw_create_order t.contract t.size = some r →
      r.status = "open") :
    execute_trades gw (t :: rest) =
      ((execute_trades gw rest).1, (t.contract, t.size) :: (execute_trades gw rest).2) ∧
    ∀ r ∈ (execute_trades gw (t :: rest)).1, r.status = "executed" := by
  have hlev2 : ¬ gw.set_leverage t.contract 3 = false := by
    rw [hlev]
    decide
  constructor
  · simp only [execute_trades]
    rw [if_neg hsz, if_neg hc, if_neg hlev2]
    rcases hres : create_futures_order gw.raw_create_order t.contract t.size with _ | r
    · rfl
    · have hopen : r.status = "open" := hfail r hres
      simp [hopen]
  · exact execute_trades_records_executed gw (t :: rest)

/-- Witness for C3 amended at the concrete gateway failing on ETH. -/
theorem order_failure_skips_record_witness :
    execute_trades gwEthFail [⟨"ETH_USDT", 3, 100⟩] =
      ((execute_trades gwEthFail []).1,
        ("ETH_USDT", (3 : ℚ)) :: (execute_trades gwEthFail []).2) ∧
    ∀ r ∈ (execute_trades gwEthFail [⟨"ETH_USDT", 3, 100⟩]).1, r.status = "executed" :=
  order_failure_skips_record gwEthFail ⟨"ETH_USDT", 3, 100⟩ []
    (by norm_num [abs_of_pos]) (by decide) rfl
    (by intro r hr; simp [create_futures_order, gwEthFail] at hr)

/-! ### C4 -/

/-- Counterexample to C4: constructing an allocation whose non-cash
percentages sum to more than 100 raises (returns an error) instead of
proceeding with the cash weight clamped to 0. -/
theorem overallocation_raises :
    PortfolioAllocation.init 60 30 20 = Except.error () := by
  norm_num [PortfolioAllocation.init]

/-- C4 amended: an over-allocated configuration makes the allocation
constructor raise; the config loader catches the exception and keeps the
default allocation 20 / 15 / 5, so the engine proceeds with defaults; and
for any allocation map that over-allocates, the target resolver clamps the
USDT weight to 0. -/
theorem overallocation_caught_by_loader (b e l : ℚ) (h : b + e + l > 100) :
    PortfolioAllocation.init b e l = Except.error () ∧
    load_allocation b e l = ⟨20, 15, 5⟩ ∧
    (get_target_portfolio ⟨b, e, l⟩).usdt = 0 := by
  have h1 : PortfolioAllocation.init b e l = Except.error () := by
    unfold PortfolioAllocation.init
    rw [if_pos h]
  refine ⟨h1, ?_, ?_⟩
  · unfold load_allocation
    rw [h1]
  · show max 0 (1 - (b / 100 + e / 100 + l / 100)) = 0
    rw [max_eq_left]
    linarith

/-- Witness for C4 amended at percentages 60 / 30 / 20. -/
theorem overallocation_caught_by_loader_witness :
    PortfolioAllocation.init 60 30 20 = Except.error () ∧
    load_allocation 60 30 20 = ⟨20, 15, 5⟩ ∧
    (get_target_portfolio ⟨60, 30, 20⟩).usdt = 0 :=
  overallocation_caught_by_loader 60 30 20 (by norm_num)

/-! ### C1 -/

/-- Counterexample to C1: on an empty account (reported total 0, no
positions) with the default 20 / 15 / 5 targets and the default 5 percent
threshold, the deviation loop of threshold_rebalance computes
needs_rebalance = true, because every deviation equals minus its target
weight. -/
theorem zero_equity_needs_rebalance_true :
    needs_rebalance_check
      (get_portfolio_summary (some 0) [] ⟨20, 15, 5⟩).deviations (5 / 100) = true := by
  norm_num [needs_rebalance_check, get_portfolio_summary, get_current_portfolio,
    get_target_portfolio, percentages_of, deviations_of, portfolio_fold, used_margin,
    assetSet, assetSum, abs_of_pos]

/-- C1 amended: whenever the snapshot values sum to 0, every current weight
is 0 and threshold_rebalance plans no trades and returns false (even though
needs_rebalance may be true when some target weight exceeds the threshold,
so the trigger flag itself is not always false). -/
theorem zero_equity_no_trades (gw : Gateway) (account_total : Option ℚ)
    (positions : List Position) (alloc : PortfolioAllocation) (th : ℚ)
    (priceOf : String → ℚ)
    (h : assetSum (get_current_portfolio account_total positions) = 0) :
    (get_portfolio_summary account_total positions alloc).current_percentages =
      ⟨0, 0, 0, 0⟩ ∧
    calculate_trades
      (calculate_rebalance_amounts (get_portfolio_summary account_total positions alloc))
      (get_market_prices priceOf) = [] ∧
    threshold_rebalance gw account_total positions alloc th priceOf = false := by
  have hnn := portfolio_fold_nonneg positions
  have hfields : 0 ≤ (get_current_portfolio account_total positions).btc ∧
      0 ≤ (get_current_portfolio account_total positions).eth ∧
      0 ≤ (get_current_portfolio account_total positions).ltc ∧
      0 ≤ (get_current_portfolio account_total positions).usdt := by
    unfold get_current_portfolio
    rw [assetSet_usdt]
    exact ⟨hnn.1.1, hnn.1.2.1, hnn.1.2.2.1, le_max_left 0 _⟩
  have hsum : (get_current_portfolio account_total positions).btc +
      (get_current_portfolio account_total positions).eth +
      (get_current_portfolio account_total positions).ltc +
      (get_current_portfolio account_total positions).usdt = 0 := h
  have hb : (get_current_portfolio account_total positions).btc = 0 := by
    rcases hfields with ⟨h1, h2, h3, h4⟩
    linarith
  have he : (get_current_portfolio account_total positions).eth = 0 := by
    rcases hfields with ⟨h1, h2, h3, h4⟩
    linarith
  have hl : (get_current_portfolio account_total positions).ltc = 0 := by
    rcases hfields with ⟨h1, h2, h3, h4⟩
    linarith
  have hadj : adjust 0 = 0 := by
    norm_num [adjust]
  have hpct : percentages_of (get_current_portfolio account_total positions) =
      ⟨0, 0, 0, 0⟩ := by
    simp only [percentages_of, h]
    norm_num
  have hamounts :
      calculate_rebalance_amounts (get_portfolio_summary account_total positions alloc) =
        ⟨0, 0, 0, 0⟩ := by
    simp only [calculate_rebalance_amounts, get_portfolio_summary, h, hb, he, hl,
      zero_mul, sub_zero, hadj, neg_zero, add_zero]
  have htr : calculate_trades
      (calculate_rebalance_amounts (get_portfolio_summary account_total positions alloc))
      (get_market_prices priceOf) = [] := by
    rw [hamounts]
    norm_num [calculate_trades, trade_for]
  refine ⟨hpct, htr, ?_⟩
  unfold threshold_rebalance
  dsimp only
  split_ifs <;> rfl

/-- Witness for C1 amended at the empty account with default configuration. -/
theorem zero_equity_no_trades_witness :
    (get_portfolio_summary (some 0) [] ⟨20, 15, 5⟩).current_percentages = ⟨0, 0, 0, 0⟩ ∧
    calculate_trades
      (calculate_rebalance_amounts (get_portfolio_summary (some 0) [] ⟨20, 15, 5⟩))
      (get_market_prices fun _ => 1) = [] ∧
    threshold_rebalance ⟨fun _ _ => true, fun _ _ => none⟩ (some 0) [] ⟨20, 15, 5⟩ 5
      (fun _ => 1) = false :=
  zero_equity_no_trades ⟨fun _ _ => true, fun _ _ => none⟩ (some 0) [] ⟨20, 15, 5⟩ 5
    (fun _ => 1)
    (by norm_num +decide [get_current_portfolio, portfolio_fold, used_margin, assetSet,
      assetSum])

/-! ### C6 -/

/-- Counterexample to C6: with reported total 0 and a single BTC position of
size 3 at mark price 10 (margin 10), the snapshot values sum to 10, not to
the reported total 0. -/
theorem snapshot_sum_not_total :
    get_current_portfolio (some 0) [⟨"BTC_USDT", some 3, some 10⟩] = ⟨10, 0, 0, 0⟩ ∧
    assetSum (get_current_portfolio (some 0) [⟨"BTC_USDT", some 3, some 10⟩]) ≠ 0 := by
  constructor
  · norm_num +decide [get_current_portfolio, portfolio_fold, used_margin, marginStep,
      supported_assets, assetSet]
  · norm_num +decide [get_current_portfolio, portfolio_fold, used_margin, marginStep,
      supported_assets, assetSet, assetSum]

lemma assetSet_btc (m : AssetMap) (v : ℚ) : assetSet m "BTC_USDT" v = { m with btc := v } := rfl

lemma assetSet_eth (m : AssetMap) (v : ℚ) : assetSet m "ETH_USDT" v = { m with eth := v } := rfl

lemma assetSet_ltc (m : AssetMap) (v : ℚ) : assetSet m "LTC_USDT" v = { m with ltc := v } := rfl

lemma marginStep_eq (acc : AssetMap × ℚ) (p : Position) :
    marginStep acc p = acc ∨
    ∃ sz mp, p.size = some sz ∧ p.mark_price = some mp ∧
      p.contract ∈ supported_assets ∧ ¬ mp ≤ 0 ∧
      marginStep acc p = (assetSet acc.1 p.contract (|sz| * mp / 3), acc.2 + |sz| * mp / 3) := by
  unfold marginStep
  by_cases hmem : p.contract ∈ supported_assets
  · rw [if_pos hmem]
    rcases hs : p.size with _ | sz <;> rcases hm : p.mark_price with _ | mp <;> dsimp only
    · exact Or.inl rfl
    · exact Or.inl rfl
    · exact Or.inl rfl
    · split_ifs with hmp
      · exact Or.inl rfl
      · exact Or.inr ⟨sz, mp, rfl, rfl, hmem, hmp, rfl⟩
  · rw [if_neg hmem]
    exact Or.inl rfl

lemma fold_invariant :
    ∀ (ps : List Position) (acc : AssetMap × ℚ),
      (ps.map Position.contract).Nodup →
      (∀ p ∈ ps, p.contract ≠ "USDT") →
      (∀ p ∈ ps, assetGet acc.1 p.contract = 0) →
      noncashSum (ps.foldl marginStep acc).1 - (ps.foldl marginStep acc).2 =
        noncashSum acc.1 - acc.2 ∧
      (ps.foldl marginStep acc).1.usdt = acc.1.usdt := by
  intro ps
  induction ps with
  | nil =>
    intro acc _ _ _
    exact ⟨rfl, rfl⟩
  | cons p rest ih =>
    intro acc hnd hnu hz
    rw [List.foldl_cons]
    rw [List.map_cons, List.nodup_cons] at hnd
    have hz2 : ∀ q ∈ rest, assetGet acc.1 q.contract = 0 :=
      fun q hq => hz q (List.mem_cons_of_mem p hq)
    have hnu2 : ∀ q ∈ rest, q.contract ≠ "USDT" :=
      fun q hq => hnu q (List.mem_cons_of_mem p hq)
    rcases marginStep_eq acc p with hstep | ⟨sz, mp, _, _, hmem2, _, hstep⟩
    · rw [hstep]
      exact ih acc hnd.2 hnu2 hz2
    · have hpne : p.contract ≠ "USDT" := hnu p (List.mem_cons_self p rest)
      have hz0 : assetGet acc.1 p.contract = 0 := hz p (List.mem_cons_self p rest)
      have hqne : ∀ q ∈ rest, q.contract ≠ p.contract := by
        intro q hq hEq
        exact hnd.1 (hEq ▸ List.mem_map_of_mem Position.contract hq)
      have hc3 : p.contract = "BTC_USDT" ∨ p.contract = "ETH_USDT" ∨
          p.contract = "LTC_USDT" := by
        simp only [supported_assets, List.mem_cons, List.not_mem_nil, or_false] at hmem2
        rcases hmem2 with h | h | h | h
        · exact Or.inl h
        · exact Or.inr (Or.inl h)
        · exact Or.inr (Or.inr h)
        · exact absurd h hpne
      rcases hc3 with hcc | hcc | hcc
      · rw [hstep, hcc, assetSet_btc]
        have hf0 : acc.1.btc = 0 := by
          rw [← assetGet_btc, ← hcc]
          exact hz0
        have hzrest : ∀ q ∈ rest,
            assetGet ({ acc.1 with btc := |sz| * mp / 3 } : AssetMap) q.contract = 0 := by
          intro q hq
          rw [assetGet_update_btc _ _ _ (by rw [← hcc]; exact hqne q hq)]
          exact hz2 q hq
        have hih := ih ({ acc.1 with btc := |sz| * mp / 3 }, acc.2 + |sz| * mp / 3)
          hnd.2 hnu2 hzrest
        refine ⟨?_, hih.2⟩
        rw [hih.1]
        simp only [noncashSum]
        rw [hf0]
        ring
      · rw [hstep, hcc, assetSet_eth]
        have hf0 : acc.1.eth = 0 := by
          rw [← assetGet_eth, ← hcc]
          exact hz0
        have hzrest : ∀ q ∈ rest,
            assetGet ({ acc.1 with eth := |sz| * mp / 3 } : AssetMap) q.contract = 0 := by
          intro q hq
          rw [assetGet_update_eth _ _ _ (by rw [← hcc]; exact hqne q hq)]
          exact hz2 q hq
        have hih := ih ({ acc.1 with eth := |sz| * mp / 3 }, acc.2 + |sz| * mp / 3)
          hnd.2 hnu2 hzrest
        refine ⟨?_, hih.2⟩
        rw [hih.1]
        simp only [noncashSum]
        rw [hf0]
        ring
      · rw [hstep, hcc, assetSet_ltc]
        have hf0 : acc.1.ltc = 0 := by
          rw [← assetGet_ltc, ← hcc]
          exact hz0
        have hzrest : ∀ q ∈ rest,
            assetGet ({ acc.1 with ltc := |sz| * mp / 3 } : AssetMap) q.contract = 0 := by
          intro q hq
          rw [assetGet_update_ltc _ _ _ (by rw [← hcc]; exact hqne q hq)]
          exact hz2 q hq
        have hih := ih ({ acc.1 with ltc := |sz| * mp / 3 }, acc.2 + |sz| * mp / 3)
          hnd.2 hnu2 hzrest
        refine ⟨?_, hih.2⟩
        rw [hih.1]
        simp only [noncashSum]
        rw [hf0]
        ring

/-- C6 amended: the cash value is max(0, T - used_margin) where the used
margin sums only over supported-contract positions with parsable fields and
positive mark price; and, provided no contract is reported twice and no
position is reported on the cash asset itself, the snapshot values sum to
max(T, used_margin) — which equals the reported total T exactly when the
used margin does not exceed T. -/
theorem snapshot_cash_and_total (T : ℚ) (ps : List Position)
    (hnd : (ps.map Position.contract).Nodup)
    (hnu : ∀ p ∈ ps, p.contract ≠ "USDT") :
    (get_current_portfolio (some T) ps).usdt = max 0 (T - used_margin ps) ∧
    assetSum (get_current_portfolio (some T) ps) = max T (used_margin ps) := by
  have hz : ∀ p ∈ ps, assetGet (⟨0, 0, 0, 0⟩ : AssetMap) p.contract = 0 := by
    intro p hp
    unfold assetGet
    split_ifs <;> rfl
  have hinv := fold_invariant ps (⟨0, 0, 0, 0⟩, 0) hnd hnu hz
  have hnc : noncashSum (portfolio_fold ps).1 = used_margin ps := by
    have h1 := hinv.1
    simp only [noncashSum] at h1 ⊢
    unfold portfolio_fold used_margin portfolio_fold
    linarith [h1]
  unfold get_current_portfolio
  rw [assetSet_usdt]
  refine ⟨rfl, ?_⟩
  simp only [assetSum, noncashSum] at hnc ⊢
  simp only [Option.getD_some]
  rcases le_total T (used_margin ps) with hle | hle
  · rw [max_eq_right hle, max_eq_left (by linarith : T - used_margin ps ≤ 0)]
    linarith [hnc]
  · rw [max_eq_left hle, max_eq_right (by linarith : (0 : ℚ) ≤ T - used_margin ps)]
    linarith [hnc]

/-- Witness for C6 amended: one BTC position of margin 10 against reported
total 100 gives cash 90 and snapshot sum 100. -/
theorem snapshot_cash_and_total_witness :
    (get_current_portfolio (some 100) [⟨"BTC_USDT", some 3, some 10⟩]).usdt =
      max 0 (100 - used_margin [⟨"BTC_USDT", some 3, some 10⟩]) ∧
    assetSum (get_current_portfolio (some 100) [⟨"BTC_USDT", some 3, some 10⟩]) =
      max 100 (used_margin [⟨"BTC_USDT", some 3, some 10⟩]) :=
  snapshot_cash_and_total 100 [⟨"BTC_USDT", some 3, some 10⟩]
    (by simp) (by simp)

end PortfolioRebalancer
